import Mathlib

/-!
Verification development for the primary-object segmentation pipeline of
`pyCellProfiler/cellprofiler/modules/identifyprimaryobjects.py`
(`IdentifyPrimaryObjects`).

Images are embedded as functions from integer pixel coordinates to exact
rationals (the source operates on float64 arrays; the float constant `np.pi`
is embedded as its exact float64 value).  Label maps are functions to `ℕ`
(0 = background).  Grids carry explicit height/width arguments; only the
positions inside the grid are meaningful.

External numerical kernels that live outside this module
(`cellprofiler.cpmath`: Gaussian smoothing internals, Laplacian of Gaussian,
Otsu, Euclidean distance transform, seeded jitter, the watershed flood) are
taken as explicit function parameters or modelled from the specification;
each modelled definition says so in its doc comment.  None of the theorems
below depend on the values those kernels produce.
-/

set_option maxRecDepth 10000

attribute [local semireducible] Rat.mul Rat.add Rat.sub Rat.inv Rat.ofScientific

/-- A pixel position: (row, column). -/
abbrev Pos : Type := ℤ × ℤ

/-- All positions of an `h × w` grid in row-major (lexicographic) order. -/
def allPos (h w : ℕ) : List Pos :=
  ((List.range h).map (fun i => (List.range w).map (fun j => ((i : ℤ), (j : ℤ))))).flatten

/-- Bounds test for an `h × w` grid. -/
def inBounds (h w : ℕ) (p : Pos) : Bool :=
  decide (0 ≤ p.1) && decide (p.1 < (h : ℤ)) && decide (0 ≤ p.2) && decide (p.2 < (w : ℤ))

/-- 8-connectivity adjacency (the `np.ones((3,3))` structuring element). -/
def adj8 (p q : Pos) : Prop :=
  p ≠ q ∧ (p.1 - q.1).natAbs ≤ 1 ∧ (p.2 - q.2).natAbs ≤ 1

instance (p q : Pos) : Decidable (adj8 p q) := by
  unfold adj8; infer_instance

/-- 4-connectivity adjacency (used for background regions in hole filling). -/
def adj4 (p q : Pos) : Prop :=
  (p.1 - q.1).natAbs + (p.2 - q.2).natAbs = 1

instance (p q : Pos) : Decidable (adj4 p q) := by
  unfold adj4; infer_instance

/-- One expansion step of a reachability search: add every pixel of `univ`
that is in the set `g` and adjacent to the current frontier. -/
def reachExpand (univ : List Pos) (adjB : Pos → Pos → Bool) (g : Pos → Bool)
    (S : List Pos) : List Pos :=
  S ++ univ.filter (fun q => g q && !(S.contains q) && S.any (fun r => adjB r q))

/-- All pixels of `univ ∩ g` reachable from `p` through `g` under `adjB`
(the fuel `univ.length` saturates the search). -/
def reachList (univ : List Pos) (adjB : Pos → Pos → Bool) (g : Pos → Bool)
    (p : Pos) : List Pos :=
  (reachExpand univ adjB g)^[univ.length] [p]

/-- Lexicographic ordering of positions (row-major scan order). -/
def lexLt (p q : Pos) : Prop :=
  p.1 < q.1 ∨ (p.1 = q.1 ∧ p.2 < q.2)

instance (p q : Pos) : Decidable (lexLt p q) := by
  unfold lexLt; infer_instance

/-- The lexicographically smallest pixel reachable from `p`: the canonical
representative of the connected component of `p`. -/
def repOf (univ : List Pos) (adjB : Pos → Pos → Bool) (g : Pos → Bool)
    (p : Pos) : Pos :=
  (reachList univ adjB g p).foldl (fun m q => if lexLt q m then q else m) p

/-- Whether `p` is the canonical representative of its component. -/
def isRep (univ : List Pos) (adjB : Pos → Pos → Bool) (g : Pos → Bool)
    (p : Pos) : Bool :=
  g p && decide (repOf univ adjB g p = p)

/-- Boolean form of 8-adjacency. -/
def adj8B (p q : Pos) : Bool := decide (adj8 p q)

/-- Boolean form of 4-adjacency. -/
def adj4B (p q : Pos) : Bool := decide (adj4 p q)

/-- The component representatives of `g` inside the grid, in scan order.
`scipy.ndimage.label` numbers components in order of first encounter in a
row-major scan, which is exactly the scan order of their representatives. -/
def componentReps (h w : ℕ) (adjB : Pos → Pos → Bool) (g : Pos → Bool) : List Pos :=
  (allPos h w).filter (isRep (allPos h w) adjB g)

/-- Number of connected components of `g` under 8-connectivity: the count
returned by `scipy.ndimage.label(g, np.ones((3,3),bool))`. -/
def numComponents8 (h w : ℕ) (g : Pos → Bool) : ℕ :=
  (componentReps h w adj8B g).length

/-- The label image produced by `scipy.ndimage.label(g, np.ones((3,3),bool))`:
each pixel of `g` gets the 1-based rank of its component representative. -/
def labelGrid (h w : ℕ) (g : Pos → Bool) : Pos → ℕ :=
  fun p =>
    if g p then
      (componentReps h w adj8B g).findIdx
        (fun r => r = repOf (allPos h w) adj8B g p) + 1
    else 0

/-- Scipy `mode='reflect'` index folding for an axis of extent `n`. -/
def reflectIdx (n : ℕ) (i : ℤ) : ℤ :=
  if n ≤ 1 then 0
  else
    let period : ℤ := 2 * n
    let r := i % period
    if r < (n : ℤ) then r else period - 1 - r

/-- The list `[a, a+1, ..., b]` of integers. -/
def intRange (a b : ℤ) : List ℤ :=
  (List.range (b - a + 1).toNat).map (fun k => a + (k : ℤ))

/-- `scipy.ndimage.maximum_filter(img, footprint)` on an `h × w` grid with the
default `reflect` boundary mode: the maximum of `img` over the footprint
offsets around each pixel. -/
def maxFilter (h w : ℕ) (img : Pos → ℚ) (footprint : List Pos) (p : Pos) : ℚ :=
  match footprint.map
      (fun o => img (reflectIdx h (p.1 + o.1), reflectIdx w (p.2 + o.2))) with
  | [] => 0
  | x :: xs => xs.foldl max x

/-- Modelled from the spec: `strel_disk` (`cellprofiler.cpmath.cpmorphology`,
not in `src/`) builds a disk-shaped boolean footprint — here the list of
integer offsets `(i, j)` with `i² + j² ≤ r²`. -/
def strel_disk (r : ℚ) : List Pos :=
  let n : ℤ := ⌈r⌉
  ((intRange (-n) n).map (fun i =>
    (intRange (-n) n).filterMap (fun j =>
      if ((i * i + j * j : ℤ) : ℚ) ≤ r * r then some (i, j) else none))).flatten

/-- Modelled from the spec: `binary_shrink` (`cellprofiler.cpmath.cpmorphology`,
not in `src/`) erodes each cluster of touching true pixels down to a single
representative point. -/
def binary_shrink (h w : ℕ) (b : Pos → Bool) : Pos → Bool :=
  isRep (allPos h w) adj8B b

/-- Round-to-nearest used by the nearest-neighbour resampling model. -/
def roundQ (q : ℚ) : ℤ := ⌊q + 1 / 2⌋

/-- `IdentifyPrimaryObjects.get_maxima` (source lines 873–908): optionally
resample the field to low resolution (modelled from the spec as
nearest-neighbour coordinate resampling for the third-party
`scipy.ndimage.map_coordinates`), zero every pixel that is strictly below the
maximum of its footprint neighbourhood, zero pixels whose (already mutated)
value is zero, resample back, erode plateaus of touching maxima to single
points, and discard maxima on the background of `labeled`. -/
def get_maxima (h w : ℕ) (image : Pos → ℚ) (labeled : Pos → ℕ)
    (maxima_mask : List Pos) (image_resize_factor : ℚ) : Pos → ℚ :=
  let rh : ℕ := if image_resize_factor < 1 then (⌈(h : ℚ) * image_resize_factor⌉).toNat else h
  let rw : ℕ := if image_resize_factor < 1 then (⌈(w : ℚ) * image_resize_factor⌉).toNat else w
  let resized : Pos → ℚ :=
    if image_resize_factor < 1 then
      fun p => image (roundQ ((p.1 : ℚ) / image_resize_factor),
                      roundQ ((p.2 : ℚ) / image_resize_factor))
    else image
  let mf := maxFilter rh rw resized maxima_mask
  let m1 : Pos → ℚ := fun p => if resized p < mf p then 0 else resized p
  let m2 : Pos → ℚ := fun p => if m1 p = 0 then 0 else m1 p
  let binary : Pos → Bool := fun p => decide (0 < m2 p)
  let binary_full : Pos → Bool :=
    if image_resize_factor < 1 then
      fun p => binary (roundQ ((p.1 : ℚ) * rh / h), roundQ ((p.2 : ℚ) * rw / w))
    else binary
  let maxima_full : Pos → ℚ :=
    if image_resize_factor < 1 then
      fun p => m2 (roundQ ((p.1 : ℚ) * rh / h), roundQ ((p.2 : ℚ) * rw / w))
    else m2
  let shrunk := binary_shrink h w binary_full
  let m4 : Pos → ℚ := fun p => if shrunk p then maxima_full p else 0
  fun p => if labeled p = 0 then 0 else m4 p

/-- The exact rational value of the float64 constant `np.pi`
(3.141592653589793115997963…), used by the source wherever it writes `np.pi`. -/
def npPi : ℚ := 884279719003555 / 281474976710656

/-- Python `int()` truncation toward zero of a rational. -/
def pytrunc (q : ℚ) : ℤ := if 0 ≤ q then ⌊q⌋ else -⌊-q⌋

/-- The unclumping-mode string `UN_INTENSITY`. -/
def UN_INTENSITY : String := "Intensity"

/-- The unclumping-mode string `UN_SHAPE`. -/
def UN_SHAPE : String := "Shape"

/-- The unclumping-mode string `UN_LOG`. -/
def UN_LOG : String := "Laplacian of Gaussian"

/-- The unclumping-mode string `UN_NONE`. -/
def UN_NONE : String := "None"

/-- The dividing-line (watershed) mode string `WA_INTENSITY`. -/
def WA_INTENSITY : String := "Intensity"

/-- The dividing-line (watershed) mode string `WA_DISTANCE`. -/
def WA_DISTANCE : String := "Distance"

/-- The dividing-line (watershed) mode string `WA_NONE`. -/
def WA_NONE : String := "None"

/-- The configuration surface of `IdentifyPrimaryObjects` consumed by the
segmentation pipeline (numeric settings as exact rationals). -/
structure Settings where
  unclump_method : String
  watershed_method : String
  size_range_min : ℚ
  size_range_max : ℚ
  exclude_size : Bool
  exclude_border_objects : Bool
  automatic_smoothing : Bool
  smoothing_filter_size : ℚ
  automatic_suppression : Bool
  maxima_suppression_size : ℚ
  low_res_maxima : Bool
  fill_holes : Bool
  wants_automatic_log_threshold : Bool
  manual_log_threshold : ℚ
  wants_automatic_log_diameter : Bool
  log_diameter : ℚ

/-- `IdentifyPrimaryObjects.calc_smoothing_filter_size` (source lines
1039–1044): `2.35 * size_range.min / 3.5` in automatic mode, the manual
setting otherwise. -/
def calc_smoothing_filter_size (s : Settings) : ℚ :=
  if s.automatic_smoothing then 2.35 * s.size_range_min / 3.5
  else s.smoothing_filter_size

/-- An input image as seen by the filters: its validity mask and whether the
image carries a mask at all (`cpimage.Image.has_mask`). -/
structure CPImage where
  mask : Pos → Bool
  has_mask : Bool

/-- The border positions (row 0, last row, column 0, last column) of an
`h × w` grid, in the order the source gathers them. -/
def borderPos (h w : ℕ) : List Pos :=
  ((List.range w).map (fun j => ((0 : ℤ), (j : ℤ)))) ++
  ((List.range h).map (fun i => ((i : ℤ), (0 : ℤ)))) ++
  ((List.range w).map (fun j => (((h : ℤ) - 1), (j : ℤ)))) ++
  ((List.range h).map (fun i => ((i : ℤ), ((w : ℤ) - 1))))

/-- `scipy.ndimage.binary_erosion` with the default cross structuring element
and `border_value=0`: a pixel survives iff it and its four in-bounds
neighbours are true (out-of-bounds neighbours count as false). -/
def binary_erosion (h w : ℕ) (m : Pos → Bool) (p : Pos) : Bool :=
  m p &&
  (inBounds h w (p.1 - 1, p.2) && m (p.1 - 1, p.2)) &&
  (inBounds h w (p.1 + 1, p.2) && m (p.1 + 1, p.2)) &&
  (inBounds h w (p.1, p.2 - 1) && m (p.1, p.2 - 1)) &&
  (inBounds h w (p.1, p.2 + 1) && m (p.1, p.2 + 1))

/-- `IdentifyPrimaryObjects.filter_on_border` (source lines 934–978).  With
border exclusion on: zero every object with a pixel on the array border
(`histogram[l] > 0` over the border pixels is membership of `l` in the border
label list); if no nonzero label touches the border and the image has a mask,
fall back to the labels touching the mask border (mask pixels killed by
binary erosion). -/
def filter_on_border (s : Settings) (h w : ℕ) (image : CPImage)
    (labeled_image : Pos → ℕ) : Pos → ℕ :=
  if s.exclude_border_objects then
    let border_labels := (borderPos h w).map labeled_image
    if border_labels.any (fun l => decide (l ≠ 0)) then
      fun p => if border_labels.contains (labeled_image p) then 0 else labeled_image p
    else if image.has_mask then
      let mask_border : Pos → Bool :=
        fun p => !(binary_erosion h w image.mask p) && image.mask p
      let mb_labels := ((allPos h w).filter mask_border).map labeled_image
      if mb_labels.any (fun l => decide (l ≠ 0)) then
        fun p => if mb_labels.contains (labeled_image p) then 0 else labeled_image p
      else labeled_image
    else labeled_image
  else labeled_image

/-- The lower area bound `np.pi * size_range.min² / 4` of `filter_on_size`. -/
def min_allowed_area (s : Settings) : ℚ :=
  npPi * (s.size_range_min * s.size_range_min) / 4

/-- The upper area bound `np.pi * size_range.max² / 4` of `filter_on_size`. -/
def max_allowed_area (s : Settings) : ℚ :=
  npPi * (s.size_range_max * s.size_range_max) / 4

/-- `IdentifyPrimaryObjects.filter_on_size` (source lines 910–932): with size
exclusion on and a positive object count, compute per-label pixel areas for
labels `0..object_count`, zero pixels of objects with area strictly below the
lower bound, keep that map as the small-removed checkpoint, then additionally
zero pixels of objects with area strictly above the upper bound.  Returns
(filtered labels, small-removed labels). -/
def filter_on_size (s : Settings) (h w : ℕ) (labeled_image : Pos → ℕ)
    (object_count : ℕ) : (Pos → ℕ) × (Pos → ℕ) :=
  if s.exclude_size ∧ 0 < object_count then
    let areas : List ℕ :=
      (List.range (object_count + 1)).map
        (fun l => ((allPos h w).filter (fun p => labeled_image p = l)).length)
    let area_image : Pos → ℕ := fun p => areas.getD (labeled_image p) 0
    let small : Pos → ℕ :=
      fun p => if ((area_image p : ℚ)) < min_allowed_area s then 0 else labeled_image p
    let filtered : Pos → ℕ :=
      fun p => if ((area_image p : ℚ)) > max_allowed_area s then 0 else small p
    (filtered, small)
  else (labeled_image, labeled_image)

/-- Modelled from the spec: `relabel` (`cellprofiler.cpmath.cpmorphology`, not
in `src/`) compacts the surviving label ids to the contiguous range
`1..object_count`, preserving their order; returns the new map and count. -/
def relabel (h w : ℕ) (labeled_image : Pos → ℕ) : (Pos → ℕ) × ℕ :=
  let maxLabel := ((allPos h w).map labeled_image).foldr max 0
  let present := (List.range (maxLabel + 1)).filter
    (fun l => decide (l ≠ 0) && (allPos h w).any (fun p => labeled_image p = l))
  (fun p => if labeled_image p = 0 then 0 else present.findIdx (fun l => l = labeled_image p) + 1,
   present.length)

/-- Modelled from the spec: `fill_labeled_holes`
(`cellprofiler.cpmath.cpmorphology`, not in `src/`) reassigns every
background region that does not reach the array border and is enclosed by a
single object's foreground to that object's label. -/
def fill_labeled_holes (h w : ℕ) (labeled_image : Pos → ℕ) : Pos → ℕ :=
  fun p =>
    if labeled_image p ≠ 0 then labeled_image p
    else
      let region := reachList (allPos h w) adj4B (fun q => decide (labeled_image q = 0)) p
      if region.any (fun q => (borderPos h w).contains q) then 0
      else
        let touching := (region.map (fun q =>
          [(q.1 - 1, q.2), (q.1 + 1, q.2), (q.1, q.2 - 1), (q.1, q.2 + 1)].filterMap
            (fun r => if inBounds h w r ∧ labeled_image r ≠ 0 then some (labeled_image r) else none))).flatten
        match touching.dedup with
        | [l] => l
        | _ => 0

/-- The external numerical kernels used by `separate_neighboring_objects`.
They live outside this module (`cellprofiler.cpmath` and `scipy`, not in
`src/`): the Gaussian smoother `smooth_image` (whose transcendental kernel
is abstracted here; its own embedding over the reals is given separately),
`laplacian_of_gaussian`, the external black-box `otsu` threshold,
`scipy.ndimage.distance_transform_edt`, the fixed-seed jitter field of the
Shape strategy, and the `fast_watershed` flood.  No theorem below depends on
the values these produce. -/
structure Kernels where
  smoothFn : (Pos → ℚ) → (Pos → Bool) → ℚ → (Pos → ℚ)
  logFn : (Pos → ℚ) → (Pos → Bool) → ℤ → ℚ → (Pos → ℚ)
  otsuFn : List ℚ → ℚ
  edtFn : (Pos → Bool) → (Pos → ℚ)
  jitterFn : Pos → ℚ
  watershedFn : (Pos → ℚ) → (Pos → ℤ) → (Pos → Bool) → (Pos → ℤ)

/-- Modelled from the spec: `stretch` (`cellprofiler.cpmath.filter`, not in
`src/`) linearly rescales the masked pixel values onto `[0, 1]`. -/
def stretch (h w : ℕ) (img : Pos → ℚ) (mask : Pos → Bool) : Pos → ℚ :=
  match ((allPos h w).filter mask).map img with
  | [] => img
  | v :: vs =>
    let mn := vs.foldl min v
    let mx := vs.foldl max v
    if mx = mn then img else fun p => (img p - mn) / (mx - mn)

/-- Minimum of `f` over a list of positions (0 on the empty list). -/
def minOver (l : List Pos) (f : Pos → ℚ) : ℚ :=
  match l with
  | [] => 0
  | x :: xs => xs.foldl (fun m q => min m (f q)) (f x)

set_option linter.unusedVariables false in
/-- The `UN_INTENSITY` branch of `separate_neighboring_objects` (source lines
815–822): a copy of the blurred image with values below the global threshold
zeroed is computed (`maxima_image`, the "remove dim maxima" step) but the
call to `get_maxima` is then made on `blurred_image` itself, so the
thresholded copy does not flow into the result. -/
def intensity_branch_maxima (h w : ℕ) (blurred_image : Pos → ℚ)
    (labeled_image : Pos → ℕ) (maxima_mask : List Pos)
    (image_resize_factor : ℚ) (threshold : ℚ) : Pos → ℚ :=
  let maxima_image : Pos → ℚ :=
    fun p => if blurred_image p < threshold then 0 else blurred_image p
  get_maxima h w blurred_image labeled_image maxima_mask image_resize_factor

/-- The `UN_LOG` branch of `separate_neighboring_objects` (source lines
775–814): choose the LoG diameter, optionally shrink the image (third-party
`scipy.ndimage.map_coordinates` modelled as nearest-neighbour resampling),
invert and stretch, apply the LoG kernel, resample back, stretch, threshold
(external Otsu or manual), clip below the threshold and offset by it, then
find maxima. -/
def log_branch_maxima (s : Settings) (K : Kernels) (h w : ℕ)
    (image : Pos → ℚ) (mask : Pos → Bool) (labeled_image : Pos → ℕ)
    (maxima_mask : List Pos) (image_resize_factor : ℚ) : Pos → ℚ :=
  let diameter : ℚ :=
    if s.wants_automatic_log_diameter then
      (min s.size_range_max (s.size_range_min * s.size_range_min) +
        s.size_range_min * 5) / 6
    else s.log_diameter
  let sigma : ℚ := diameter / 2.35
  let shrunken : Bool := image_resize_factor < 1
  let sh : ℕ := if shrunken then (⌊(h : ℚ) * image_resize_factor + 1⌋).toNat else h
  let sw : ℕ := if shrunken then (⌊(w : ℚ) * image_resize_factor + 1⌋).toNat else w
  let simage : Pos → ℚ :=
    if shrunken then
      fun p => image (roundQ ((p.1 : ℚ) / image_resize_factor),
                      roundQ ((p.2 : ℚ) / image_resize_factor))
    else image
  let smask : Pos → Bool :=
    if shrunken then
      fun p => mask (roundQ ((p.1 : ℚ) / image_resize_factor),
                     roundQ ((p.2 : ℚ) / image_resize_factor))
    else mask
  let diameter2 : ℚ := if shrunken then diameter * image_resize_factor + 1 else diameter
  let sigma2 : ℚ := if shrunken then sigma * image_resize_factor else sigma
  let normalized : Pos → ℚ := fun p => 1 - stretch sh sw simage smask p
  let log_image : Pos → ℚ := K.logFn normalized smask (pytrunc (diameter2 * 3 / 2)) sigma2
  let log_image : Pos → ℚ :=
    if shrunken then
      fun p => log_image (roundQ ((p.1 : ℚ) * image_resize_factor),
                          roundQ ((p.2 : ℚ) * image_resize_factor))
    else log_image
  let log_image := stretch h w log_image mask
  let log_threshold : ℚ :=
    if s.wants_automatic_log_threshold then
      K.otsuFn (((allPos h w).filter mask).map log_image)
    else s.manual_log_threshold
  let log_image : Pos → ℚ :=
    fun p => (if log_image p < log_threshold then log_threshold else log_image p) -
      log_threshold
  get_maxima h w log_image labeled_image maxima_mask image_resize_factor

/-- `IdentifyPrimaryObjects.separate_neighboring_objects` (source lines
745–871).  Returns `(labels, object_count, maxima_suppression_size)` on
success (label values as integers: the source returns the negated watershed
output) or the exception raised by the unsupported-mode branches.  The
unsupported unclump-mode branch (line 835) evaluates
`"..." % s(self.unclump_method.value)` where `s` is an undefined name, so it
raises `NameError` while building the intended `ValueError`. -/
def separate_neighboring_objects (s : Settings) (K : Kernels) (h w : ℕ)
    (image : Pos → ℚ) (mask : Pos → Bool) (labeled_image : Pos → ℕ)
    (object_count : ℕ) (threshold : ℚ) :
    Except String ((Pos → ℤ) × ℕ × ℚ) :=
  if s.unclump_method = UN_NONE ∨ s.watershed_method = WA_NONE then
    .ok (fun p => (labeled_image p : ℤ), object_count, 7)
  else
    let sigma := calc_smoothing_filter_size s / 2.35
    let blurred_image := K.smoothFn image mask sigma
    let image_resize_factor : ℚ :=
      if s.low_res_maxima ∧ s.size_range_min > 10 then 10 / s.size_range_min else 1
    let maxima_suppression_size : ℚ :=
      if s.low_res_maxima ∧ s.size_range_min > 10 then
        if s.automatic_suppression then 7
        else s.maxima_suppression_size * (10 / s.size_range_min) + 0.5
      else
        if s.automatic_suppression then s.size_range_min / 1.5
        else s.maxima_suppression_size
    let maxima_mask := strel_disk (maxima_suppression_size - 0.5)
    let distance_transformed_image : Option (Pos → ℚ) :=
      if s.unclump_method = UN_SHAPE then
        some (fun p => K.edtFn (fun q => decide (0 < labeled_image q)) p + K.jitterFn p)
      else none
    let maxima_result : Except String (Pos → ℚ) :=
      if s.unclump_method = UN_LOG then
        .ok (log_branch_maxima s K h w image mask labeled_image maxima_mask
          image_resize_factor)
      else if s.unclump_method = UN_INTENSITY then
        .ok (intensity_branch_maxima h w blurred_image labeled_image maxima_mask
          image_resize_factor threshold)
      else if s.unclump_method = UN_SHAPE then
        .ok (get_maxima h w
          (fun p => K.edtFn (fun q => decide (0 < labeled_image q)) p + K.jitterFn p)
          labeled_image maxima_mask image_resize_factor)
      else
        .error "NameError: name s is not defined"
    match maxima_result with
    | .error e => .error e
    | .ok maxima_image =>
      let watershed_result : Except String (Pos → ℚ) :=
        if s.watershed_method = WA_INTENSITY then
          .ok (fun p => 1 - image p)
        else if s.watershed_method = WA_DISTANCE then
          let dti : Pos → ℚ :=
            match distance_transformed_image with
            | some d => d
            | none => K.edtFn (fun q => decide (0 < labeled_image q))
          let neg : Pos → ℚ := fun p => -(dti p)
          let mn := minOver (allPos h w) neg
          .ok (fun p => neg p - mn)
        else
          .error ("Watershed method " ++ s.watershed_method ++ " is not implemented")
      match watershed_result with
      | .error e => .error e
      | .ok watershed_image =>
        let maxima_nonzero : Pos → Bool := fun p => decide (0 < maxima_image p)
        let labeled_maxima := labelGrid h w maxima_nonzero
        let new_count := numComponents8 h w maxima_nonzero
        let markers : Pos → ℤ :=
          fun p => if 0 < labeled_maxima p then -(labeled_maxima p : ℤ) else 0
        let watershed_boundaries :=
          K.watershedFn watershed_image markers (fun p => decide (labeled_image p ≠ 0))
        .ok (fun p => -(watershed_boundaries p), new_count, maxima_suppression_size)

/-- The label images produced by the post-filter section of
`IdentifyPrimaryObjects.run`. -/
structure PostFilterResult where
  final : Pos → ℕ
  unedited : Pos → ℕ
  borderExcluded : Pos → ℕ
  sizeExcluded : Pos → ℕ
  smallRemoved : Pos → ℕ
  finalCount : ℕ

/-- The post-filter section of `IdentifyPrimaryObjects.run` (source lines
631–650) applied to the post-unclump label map: keep the unedited copy,
filter border objects and record what was removed, filter by size and record
what was removed, relabel, and fill holes again when enabled. -/
def runPostFilter (s : Settings) (h w : ℕ) (image : CPImage)
    (labeled_image : Pos → ℕ) (object_count : ℕ) : PostFilterResult :=
  let unedited := labeled_image
  let afterBorder := filter_on_border s h w image labeled_image
  let borderExcluded : Pos → ℕ :=
    fun p => if 0 < afterBorder p then 0 else labeled_image p
  let sizePair := filter_on_size s h w afterBorder object_count
  let afterSize := sizePair.1
  let smallRemoved := sizePair.2
  let sizeExcluded : Pos → ℕ :=
    fun p => if 0 < afterSize p then 0 else afterBorder p
  let relabeled := relabel h w afterSize
  let final :=
    if s.fill_holes then fill_labeled_holes h w relabeled.1 else relabeled.1
  { final := final, unedited := unedited, borderExcluded := borderExcluded,
    sizeExcluded := sizeExcluded, smallRemoved := smallRemoved,
    finalCount := relabeled.2 }

/-- The monotonic-exclusion property claimed for the pipeline: over the grid,
the nonzero-pixel sets of the final, size-excluded and border-excluded label
maps are pairwise disjoint and their union is the nonzero-pixel set of the
unedited map. -/
def monotonicExclusion (h w : ℕ) (r : PostFilterResult) : Prop :=
  (∀ p ∈ allPos h w,
    (r.final p ≠ 0 → r.sizeExcluded p = 0 ∧ r.borderExcluded p = 0) ∧
    (r.sizeExcluded p ≠ 0 → r.borderExcluded p = 0)) ∧
  (∀ p ∈ allPos h w,
    (r.final p ≠ 0 ∨ r.sizeExcluded p ≠ 0 ∨ r.borderExcluded p ≠ 0) ↔
      r.unedited p ≠ 0)

instance (h w : ℕ) (r : PostFilterResult) : Decidable (monotonicExclusion h w r) := by
  unfold monotonicExclusion; infer_instance

/-- Sorted insertion used to embed Python's in-place `list.sort()`. -/
def insertSorted (n : ℕ) : List ℕ → List ℕ
  | [] => [n]
  | m :: ms => if n ≤ m then n :: m :: ms else m :: insertSorted n ms

/-- Ascending insertion sort (the behaviour of `areas.sort()`). -/
def sortAsc (l : List ℕ) : List ℕ := l.foldr insertSorted []

/-- The sorted per-object pixel areas computed in `IdentifyPrimaryObjects.run`
(source lines 663–664): `scipy.ndimage.histogram(labeled, 1, count+1, count)`
counts the pixels of each label `1..count`, then the list is sorted. -/
def objectAreasSorted (h w : ℕ) (labeled_image : Pos → ℕ) (object_count : ℕ) :
    List ℕ :=
  sortAsc ((List.range object_count).map
    (fun i => ((allPos h w).filter (fun p => labeled_image p = i + 1)).length))

/-- The 10th-percentile "equivalent diameter" statistic as the source computes
it (lines 665–666): `math.sqrt(areas[object_count/10]) * 2 / np.pi`. -/
noncomputable def low_diameter (areas : List ℕ) (object_count : ℕ) : ℝ :=
  Real.sqrt (areas.getD (object_count / 10) 0) * 2 / Real.pi

/-- The 90th-percentile "equivalent diameter" statistic as the source computes
it (lines 667–668): `math.sqrt(areas[object_count*9/10]) * 2 / np.pi`. -/
noncomputable def high_diameter (areas : List ℕ) (object_count : ℕ) : ℝ :=
  Real.sqrt (areas.getD (object_count * 9 / 10) 0) * 2 / Real.pi

/-- The equivalent-diameter formula stated by the spec: `2·sqrt(area/π)`, the
diameter of the circle whose area is `area`. -/
noncomputable def equivDiameterSpec (area : ℕ) : ℝ :=
  2 * Real.sqrt ((area : ℝ) / Real.pi)

/-- The true Gaussian kernel coefficient built by `smooth_image` (source lines
726–728): `1/sqrt(2π)/σ · exp(-d²/(2σ²))`. -/
noncomputable def gaussKernel (sigma : ℚ) (d : ℤ) : ℝ :=
  1 / Real.sqrt (2 * Real.pi) / (sigma : ℝ) *
    Real.exp (-(1 : ℝ) / 2 * (d : ℝ) ^ 2 / (sigma : ℝ) ^ 2)

/-- `scipy.ndimage.convolve1d(img, ker, axis=0, mode='constant')` restricted
to an `h × w` grid: out-of-bounds rows contribute zero. -/
noncomputable def convRows (h : ℕ) (fs : ℤ) (ker : ℤ → ℝ) (img : Pos → ℝ) :
    Pos → ℝ :=
  fun p => (intRange (-fs) fs).foldr
    (fun d acc =>
      ker d * (if 0 ≤ p.1 + d ∧ p.1 + d < (h : ℤ) then img (p.1 + d, p.2) else 0) + acc)
    0

/-- `scipy.ndimage.convolve1d(img, ker, axis=1, mode='constant')` restricted
to an `h × w` grid: out-of-bounds columns contribute zero. -/
noncomputable def convCols (w : ℕ) (fs : ℤ) (ker : ℤ → ℝ) (img : Pos → ℝ) :
    Pos → ℝ :=
  fun p => (intRange (-fs) fs).foldr
    (fun d acc =>
      ker d * (if 0 ≤ p.2 + d ∧ p.2 + d < (w : ℤ) then img (p.1, p.2 + d) else 0) + acc)
    0

/-- `IdentifyPrimaryObjects.smooth_image` (source lines 713–743): if the
computed filter size is zero return the image unchanged; otherwise build the
Gaussian kernel of half-width `max(int(filter_size/2), 1)`, convolve the
mask-zeroed image separably along both axes with constant padding, and divide
by the identically convolved mask to correct edge effects. -/
noncomputable def smooth_image (s : Settings) (h w : ℕ) (image : Pos → ℝ)
    (mask : Pos → Bool) (sigma : ℚ) : Pos → ℝ :=
  let filter_size := calc_smoothing_filter_size s
  if filter_size = 0 then image
  else
    let fs : ℤ := max (pytrunc (filter_size / 2)) 1
    let f := gaussKernel sigma
    let fgaussian : (Pos → ℝ) → (Pos → ℝ) :=
      fun im => convCols w fs f (convRows h fs f im)
    let edge_array := fgaussian (fun p => if mask p then 1 else 0)
    let masked_image : Pos → ℝ := fun p => if mask p then image p else 0
    fun p => fgaussian masked_image p / edge_array p

/-- A baseline configuration with the module defaults. -/
def baseSettings : Settings :=
  { unclump_method := UN_INTENSITY, watershed_method := WA_INTENSITY,
    size_range_min := 10, size_range_max := 40,
    exclude_size := true, exclude_border_objects := true,
    automatic_smoothing := true, smoothing_filter_size := 10,
    automatic_suppression := true, maxima_suppression_size := 7,
    low_res_maxima := true, fill_holes := true,
    wants_automatic_log_threshold := true, manual_log_threshold := 0.5,
    wants_automatic_log_diameter := true, log_diameter := 5 }

/-- A concrete instantiation of the external kernels, used only where the
result provably does not depend on them. -/
def trivialKernels : Kernels :=
  { smoothFn := fun i _ _ => i, logFn := fun i _ _ _ => i,
    otsuFn := fun _ => 0, edtFn := fun _ _ => 0,
    jitterFn := fun _ => 0, watershedFn := fun _ m _ => m }

/-- A 1×5 smoothed-intensity row `[5, 2, 1, 2, 5]`. -/
def exBlurred : Pos → ℚ :=
  fun p => if p.1 = 0 ∧ 0 ≤ p.2 ∧ p.2 < 5 then [5, 2, 1, 2, 5].getD p.2.toNat 0 else 0

/-- The all-foreground labeling of the 1×5 grid (one connected object). -/
def exLabeled : Pos → ℕ :=
  fun p => if p.1 = 0 ∧ 0 ≤ p.2 ∧ p.2 < 5 then 1 else 0

/-- C10: `calc_smoothing_filter_size` returns `2.35·min/3.5` in automatic
mode — so the unclumping sigma `filter_size/2.35` is exactly `min/3.5` — and
the manual smoothing filter size otherwise. -/
theorem calc_smoothing_filter_size_spec (s : Settings) :
    (s.automatic_smoothing = true →
      calc_smoothing_filter_size s = 2.35 * s.size_range_min / 3.5 ∧
      calc_smoothing_filter_size s / 2.35 = s.size_range_min / 3.5) ∧
    (s.automatic_smoothing = false →
      calc_smoothing_filter_size s = s.smoothing_filter_size) := by
  constructor
  · intro ha
    constructor
    · simp [calc_smoothing_filter_size, ha]
    · simp only [calc_smoothing_filter_size, ha, if_true]
      field_simp
      ring
  · intro ha
    simp [calc_smoothing_filter_size, ha]

/-- Witness for C10: the automatic branch at the default configuration and
the manual branch with automatic smoothing off. -/
theorem calc_smoothing_filter_size_spec_witness :
    calc_smoothing_filter_size baseSettings / 2.35 = baseSettings.size_range_min / 3.5 ∧
    calc_smoothing_filter_size { baseSettings with automatic_smoothing := false } =
      ({ baseSettings with automatic_smoothing := false } : Settings).smoothing_filter_size :=
  ⟨((calc_smoothing_filter_size_spec baseSettings).1 rfl).2,
   (calc_smoothing_filter_size_spec { baseSettings with automatic_smoothing := false }).2 rfl⟩

/-- C3: with unclumping mode `None` or dividing-line mode `None`,
`separate_neighboring_objects` returns the input labeling and object count
unchanged together with the fixed default maxima-suppression size 7, for
every choice of the numerical kernels. -/
theorem separate_none_fast_path (s : Settings) (K : Kernels) (h w : ℕ)
    (image : Pos → ℚ) (mask : Pos → Bool) (labeled_image : Pos → ℕ)
    (object_count : ℕ) (threshold : ℚ)
    (hnone : s.unclump_method = UN_NONE ∨ s.watershed_method = WA_NONE) :
    separate_neighboring_objects s K h w image mask labeled_image object_count
        threshold =
      .ok (fun p => (labeled_image p : ℤ), object_count, 7) := by
  unfold separate_neighboring_objects
  rw [if_pos hnone]

/-- Witness for C3: the `None` unclumping mode on a concrete input. -/
theorem separate_none_fast_path_witness :
    separate_neighboring_objects { baseSettings with unclump_method := UN_NONE }
        trivialKernels 1 5 exBlurred (fun _ => true) exLabeled 1 0 =
      .ok (fun p => (exLabeled p : ℤ), 1, 7) :=
  separate_none_fast_path _ _ _ _ _ _ _ _ _ (Or.inl rfl)

/-- C9 (amended): when the computed smoothing filter size is exactly zero,
`smooth_image` returns the input image unchanged. -/
theorem smooth_image_identity_on_zero_size (s : Settings) (h w : ℕ)
    (image : Pos → ℝ) (mask : Pos → Bool) (sigma : ℚ)
    (hz : calc_smoothing_filter_size s = 0) :
    smooth_image s h w image mask sigma = image := by
  unfold smooth_image
  simp [hz]

/-- Witness for the C9 fast path: a manual filter size of zero. -/
theorem smooth_image_identity_on_zero_size_witness :
    smooth_image { baseSettings with automatic_smoothing := false, smoothing_filter_size := 0 }
        1 2 (fun _ => 0) (fun _ => true) 1 =
      (fun _ => 0) :=
  smooth_image_identity_on_zero_size _ 1 2 _ _ 1 (by decide)

/-- C1: the "remove dim maxima" step of the Intensity branch does not reach
the result: on the 1×5 smoothed row `[5,2,1,2,5]` with global threshold 10
(so every pixel is dim) the branch still emits a marker of smoothed value 5
at pixel (0,0), whereas running maxima detection on the thresholded field —
what the claim describes — yields zero there. -/
theorem intensity_dim_maxima_not_removed :
    intensity_branch_maxima 1 5 exBlurred exLabeled (strel_disk 1) 1 10 (0, 0) = 5 ∧
    exBlurred (0, 0) < 10 ∧
    get_maxima 1 5 (fun p => if exBlurred p < 10 then 0 else exBlurred p) exLabeled
      (strel_disk 1) 1 (0, 0) = 0 := by
  decide

/-- C8 (counterexample): on the 1×5 row `[5,2,1,2,5]` with a single
foreground component, the Intensity maxima image has two 8-connected marker
clusters — more clusters than foreground components. -/
theorem maxima_clusters_exceed_components :
    ¬ (numComponents8 1 5
        (fun p => decide (get_maxima 1 5 exBlurred exLabeled (strel_disk 1) 1 p ≠ 0)) ≤
       numComponents8 1 5 (fun p => decide (exLabeled p ≠ 0))) := by
  decide

/-- Maxima never sit on the background: `get_maxima` ends by zeroing every
pixel whose label is zero. -/
theorem get_maxima_on_foreground (h w : ℕ) (image : Pos → ℚ)
    (labeled : Pos → ℕ) (maxima_mask : List Pos) (rf : ℚ) (p : Pos)
    (h0 : labeled p = 0) :
    get_maxima h w image labeled maxima_mask rf p = 0 := by
  unfold get_maxima
  simp [h0]

/-- Connectivity of `p` and `q` inside the pixel set `g`: both endpoints lie
in `g` and are joined by a chain of 8-adjacent pixels of `g`. -/
def ConnectedIn (g : Pos → Prop) (p q : Pos) : Prop :=
  g p ∧ g q ∧ Relation.ReflTransGen (fun a b => g b ∧ adj8 a b) p q

/-- C8 (amended): every 8-connected cluster of watershed seed markers lies
inside a single connected foreground component — pixels joined through the
nonzero set of the maxima image are joined through the nonzero set of the
foreground labeling, so seeds never merge distinct components. -/
theorem maxima_cluster_stays_in_component (h w : ℕ) (image : Pos → ℚ)
    (labeled : Pos → ℕ) (maxima_mask : List Pos) (rf : ℚ) (p q : Pos)
    (hconn : ConnectedIn
      (fun r => get_maxima h w image labeled maxima_mask rf r ≠ 0) p q) :
    ConnectedIn (fun r => labeled r ≠ 0) p q := by
  obtain ⟨hp, hq, hsteps⟩ := hconn
  have sub : ∀ r : Pos, get_maxima h w image labeled maxima_mask rf r ≠ 0 →
      labeled r ≠ 0 := by
    intro r hr hcontra
    exact hr (get_maxima_on_foreground h w image labeled maxima_mask rf r hcontra)
  exact ⟨sub p hp, sub q hq,
    Relation.ReflTransGen.mono (fun a b hab => ⟨sub b hab.1, hab.2⟩) hsteps⟩

/-- Witness for C8 on the concrete 1×5 input: the marker pixel (0,0) lies in
the foreground component. -/
theorem maxima_cluster_stays_in_component_witness :
    ConnectedIn (fun r => exLabeled r ≠ 0) (0, 0) (0, 0) :=
  maxima_cluster_stays_in_component 1 5 exBlurred exLabeled (strel_disk 1) 1
    (0, 0) (0, 0) ⟨by decide, by decide, Relation.ReflTransGen.refl⟩

/-- A configuration with an unsupported unclumping mode but dividing-line
mode `None`. -/
def badUnclumpSettings : Settings :=
  { baseSettings with unclump_method := "Garbage", watershed_method := WA_NONE }

/-- C7 (counterexample): with the unsupported unclumping mode "Garbage" but
dividing-line mode `None`, `separate_neighboring_objects` raises nothing and
returns a labeling — the early return shadows the mode check. -/
theorem unsupported_unclump_mode_silent_with_none :
    separate_neighboring_objects badUnclumpSettings trivialKernels 1 5 exBlurred
        (fun _ => true) exLabeled 1 0 =
      .ok (fun p => (exLabeled p : ℤ), 1, 7) := by
  have hnone : badUnclumpSettings.unclump_method = UN_NONE ∨
      badUnclumpSettings.watershed_method = WA_NONE := Or.inr rfl
  unfold separate_neighboring_objects
  rw [if_pos hnone]

/-- C7 (amended): once the dispatch is actually reached (neither mode is
`None`), an unsupported unclumping mode raises synchronously — but a
`NameError` from the faulty message formatting on line 835, not the intended
`ValueError` naming the mode — and an unsupported dividing-line mode raises
the `NotImplementedError` naming it. -/
theorem unsupported_mode_errors_when_dispatch_reached (s : Settings) (K : Kernels)
    (h w : ℕ) (image : Pos → ℚ) (mask : Pos → Bool) (labeled_image : Pos → ℕ)
    (object_count : ℕ) (threshold : ℚ) :
    (s.unclump_method ≠ UN_NONE → s.unclump_method ≠ UN_LOG →
     s.unclump_method ≠ UN_INTENSITY → s.unclump_method ≠ UN_SHAPE →
     s.watershed_method ≠ WA_NONE →
      separate_neighboring_objects s K h w image mask labeled_image object_count
          threshold =
        .error "NameError: name s is not defined") ∧
    ((s.unclump_method = UN_LOG ∨ s.unclump_method = UN_INTENSITY ∨
        s.unclump_method = UN_SHAPE) →
     s.watershed_method ≠ WA_INTENSITY → s.watershed_method ≠ WA_DISTANCE →
     s.watershed_method ≠ WA_NONE →
      separate_neighboring_objects s K h w image mask labeled_image object_count
          threshold =
        .error ("Watershed method " ++ s.watershed_method ++ " is not implemented")) := by
  constructor
  · intro h1 h2 h3 h4 h5
    simp [separate_neighboring_objects, h1, h2, h3, h4, h5]
  · intro hu hw1 hw2 hw3
    rcases hu with hu | hu | hu <;>
      simp [separate_neighboring_objects, hu, hw1, hw2, hw3,
        UN_NONE, UN_LOG, UN_INTENSITY, UN_SHAPE]

/-- A configuration with a valid unclumping mode but an unsupported
dividing-line mode. -/
def badWatershedSettings : Settings :=
  { baseSettings with watershed_method := "Bogus" }

/-- A configuration with an unsupported unclumping mode and a valid
dividing-line mode, so the dispatch is reached. -/
def garbageUnclumpSettings : Settings :=
  { baseSettings with unclump_method := "Garbage" }

/-- Witness for C7: the unsupported unclumping mode "Garbage" raises the
`NameError` once the dispatch is reached, and the unsupported dividing-line
mode "Bogus" raises the `NotImplementedError` naming it. -/
theorem unsupported_mode_errors_witness :
    (separate_neighboring_objects garbageUnclumpSettings trivialKernels 1 5 exBlurred
        (fun _ => true) exLabeled 1 0 =
      .error "NameError: name s is not defined") ∧
    (separate_neighboring_objects badWatershedSettings trivialKernels 1 5 exBlurred
        (fun _ => true) exLabeled 1 0 =
      .error ("Watershed method " ++ badWatershedSettings.watershed_method ++
        " is not implemented")) :=
  ⟨(unsupported_mode_errors_when_dispatch_reached garbageUnclumpSettings trivialKernels
      1 5 exBlurred (fun _ => true) exLabeled 1 0).1
    (by decide) (by decide) (by decide) (by decide) (by decide),
   (unsupported_mode_errors_when_dispatch_reached badWatershedSettings trivialKernels
      1 5 exBlurred (fun _ => true) exLabeled 1 0).2
    (Or.inr (Or.inl rfl)) (by decide) (by decide) (by decide)⟩

/-- Lookup into a table built by mapping over `List.range`. -/
theorem getD_range_map (f : ℕ → ℕ) (n l : ℕ) (hl : l < n) :
    ((List.range n).map f).getD l 0 = f l := by
  rw [List.getD_eq_getElem?_getD, List.getElem?_map, List.getElem?_range hl]
  rfl

/-- The pixel area of label `l` in the label map `L`. -/
def areaOfLabel (h w : ℕ) (L : Pos → ℕ) (l : ℕ) : ℕ :=
  ((allPos h w).filter (fun p => L p = l)).length

/-- C5: with size exclusion on and a positive object count, `filter_on_size`
zeroes exactly the pixels of labels whose area is strictly below
`π·min²/4` or strictly above `π·max²/4`, and the small-removed checkpoint
has only the lower bound applied; with exclusion off or no objects the input
is returned twice, untouched. -/
theorem filter_on_size_spec (s : Settings) (h w : ℕ) (L : Pos → ℕ) (count : ℕ) :
    (s.exclude_size = true → 0 < count → (∀ p, L p ≤ count) →
      ∀ p,
        (filter_on_size s h w L count).1 p =
          (if (areaOfLabel h w L (L p) : ℚ) < min_allowed_area s ∨
              (areaOfLabel h w L (L p) : ℚ) > max_allowed_area s then 0 else L p) ∧
        (filter_on_size s h w L count).2 p =
          (if (areaOfLabel h w L (L p) : ℚ) < min_allowed_area s then 0 else L p)) ∧
    (¬(s.exclude_size = true ∧ 0 < count) →
      filter_on_size s h w L count = (L, L)) := by
  constructor
  · intro hex hc hb p
    have harea :
        ((List.range (count + 1)).map
          (fun l => ((allPos h w).filter (fun q => L q = l)).length)).getD (L p) 0 =
          areaOfLabel h w L (L p) :=
      getD_range_map _ _ _ (Nat.lt_succ_of_le (hb p))
    unfold filter_on_size
    rw [if_pos ⟨hex, hc⟩]
    simp only [harea]
    constructor
    · by_cases h1 : (areaOfLabel h w L (L p) : ℚ) < min_allowed_area s <;>
        by_cases h2 : (areaOfLabel h w L (L p) : ℚ) > max_allowed_area s <;>
        simp [h1, h2]
    · trivial
  · intro hne
    unfold filter_on_size
    rw [if_neg hne]

/-- A configuration with diameter range [2, 10], border exclusion off. -/
def smallSizeSettings : Settings :=
  { baseSettings with size_range_min := 2, size_range_max := 10, exclude_border_objects := false }

/-- A 3×3 map: a ring of label 1 around a single-pixel object of label 2. -/
def ringLabels : Pos → ℕ :=
  fun p => if p = (1, 1) then 2 else if inBounds 3 3 p then 1 else 0

/-- Every label of `ringLabels` is at most 2. -/
theorem ringLabels_le_two : ∀ p, ringLabels p ≤ 2 := by
  intro p
  unfold ringLabels
  split_ifs <;> omega

/-- Witness for C5: the size filter evaluated at the centre pixel of the
3×3 ring map, and the untouched pass-through with exclusion off. -/
theorem filter_on_size_spec_witness :
    ((filter_on_size smallSizeSettings 3 3 ringLabels 2).1 (1, 1) =
      (if (areaOfLabel 3 3 ringLabels (ringLabels (1, 1)) : ℚ) <
            min_allowed_area smallSizeSettings ∨
          (areaOfLabel 3 3 ringLabels (ringLabels (1, 1)) : ℚ) >
            max_allowed_area smallSizeSettings
        then 0 else ringLabels (1, 1))) ∧
    filter_on_size { smallSizeSettings with exclude_size := false } 3 3 ringLabels 2 =
      (ringLabels, ringLabels) :=
  ⟨(((filter_on_size_spec smallSizeSettings 3 3 ringLabels 2).1 rfl (by decide)
    ringLabels_le_two) (1, 1)).1,
   (filter_on_size_spec { smallSizeSettings with exclude_size := false } 3 3
    ringLabels 2).2 (by decide)⟩

/-- C6: with border exclusion on, `filter_on_border` zeroes every object with
a pixel on row 0, the last row, column 0 or the last column; when no object
touches the hard array border and the image carries a mask, it instead
zeroes exactly the objects touching the mask border; when no object touches
the hard border and there is no mask, the labeling is unchanged. -/
theorem filter_on_border_spec (s : Settings) (h w : ℕ) (img : CPImage)
    (L : Pos → ℕ) (hex : s.exclude_border_objects = true) :
    (∀ p q, q ∈ borderPos h w → L q = L p → L p ≠ 0 →
      filter_on_border s h w img L p = 0) ∧
    (((borderPos h w).map L).any (fun l => decide (l ≠ 0)) = true →
      ∀ p, filter_on_border s h w img L p =
        if ((borderPos h w).map L).contains (L p) then 0 else L p) ∧
    (((borderPos h w).map L).any (fun l => decide (l ≠ 0)) = false →
      img.has_mask = true →
      ∀ p, filter_on_border s h w img L p =
        if (((allPos h w).filter
              (fun r => !(binary_erosion h w img.mask r) && img.mask r)).map L).contains
            (L p)
        then 0 else L p) ∧
    (((borderPos h w).map L).any (fun l => decide (l ≠ 0)) = false →
      img.has_mask = false →
      filter_on_border s h w img L = L) := by
  have hmain : ((borderPos h w).map L).any (fun l => decide (l ≠ 0)) = true →
      ∀ p, filter_on_border s h w img L p =
        if ((borderPos h w).map L).contains (L p) then 0 else L p := by
    intro hany p
    unfold filter_on_border
    rw [if_pos hex, if_pos hany]
  refine ⟨?_, hmain, ?_, ?_⟩
  · intro p q hq hlq hne
    have hmem : L p ∈ (borderPos h w).map L := hlq ▸ List.mem_map_of_mem L hq
    have hany : ((borderPos h w).map L).any (fun l => decide (l ≠ 0)) = true :=
      List.any_eq_true.mpr ⟨L p, hmem, by simpa using hne⟩
    rw [hmain hany p, if_pos (List.elem_iff.mpr hmem)]
  · intro hany hm p
    unfold filter_on_border
    rw [if_pos hex, if_neg (by simp only [hany]; exact Bool.false_ne_true), if_pos hm]
    by_cases hmb :
        ((((allPos h w).filter
          (fun r => !(binary_erosion h w img.mask r) && img.mask r)).map L).any
          (fun l => decide (l ≠ 0))) = true
    · rw [if_pos hmb]
    · rw [if_neg hmb]
      by_cases hc :
          (((allPos h w).filter
            (fun r => !(binary_erosion h w img.mask r) && img.mask r)).map L).contains
            (L p) = true
      · rw [if_pos hc]
        have hmem := List.elem_iff.mp hc
        have hmb2 : ((((allPos h w).filter
            (fun r => !(binary_erosion h w img.mask r) && img.mask r)).map L).any
            (fun l => decide (l ≠ 0))) = false := by
          simpa using hmb
        simp only [List.any_eq_false] at hmb2
        have := hmb2 _ hmem
        simpa using this
      · rw [if_neg hc]
  · intro hany hm
    unfold filter_on_border
    rw [if_pos hex, if_neg (by simp only [hany]; exact Bool.false_ne_true),
      if_neg (by simp only [hm]; exact Bool.false_ne_true)]

/-- An image carrying an all-true validity mask. -/
def fullMaskImage : CPImage := ⟨fun _ => true, true⟩

/-- A 3×3 map whose only object is the single centre pixel. -/
def centerLabels : Pos → ℕ := fun p => if p = (1, 1) then 1 else 0

/-- Witness for C6: the ring object touches the corner pixel (0,0) and is
zeroed there; on the centre-only map no object touches the hard border, so
the mask fallback characterization applies at the centre pixel. -/
theorem filter_on_border_spec_witness :
    filter_on_border baseSettings 3 3 ⟨fun _ => true, false⟩ ringLabels (0, 0) = 0 ∧
    filter_on_border baseSettings 3 3 fullMaskImage centerLabels (1, 1) =
      (if (((allPos 3 3).filter
          (fun r => !(binary_erosion 3 3 fullMaskImage.mask r) && fullMaskImage.mask r)).map
          centerLabels).contains (centerLabels (1, 1))
        then 0 else centerLabels (1, 1)) :=
  ⟨(filter_on_border_spec baseSettings 3 3 ⟨fun _ => true, false⟩ ringLabels rfl).1
    (0, 0) (0, 0) (by decide) rfl (by decide),
   (filter_on_border_spec baseSettings 3 3 fullMaskImage centerLabels rfl).2.2.1
    (by decide) rfl (1, 1)⟩


/-- `filter_on_border` either zeroes a pixel or leaves its label alone. -/
theorem filter_on_border_cases (s : Settings) (h w : ℕ) (img : CPImage)
    (L : Pos → ℕ) (p : Pos) :
    filter_on_border s h w img L p = 0 ∨ filter_on_border s h w img L p = L p := by
  have ite_zero_cases : ∀ (c : Prop) (_ : Decidable c) (x : ℕ),
      (if c then 0 else x) = 0 ∨ (if c then 0 else x) = x := by
    intro c hc x
    split_ifs <;> simp
  by_cases h1 : s.exclude_border_objects = true
  case neg =>
    right; unfold filter_on_border; rw [if_neg h1]
  by_cases h2 : ((borderPos h w).map L).any (fun l => decide (l ≠ 0)) = true
  · unfold filter_on_border
    rw [if_pos h1, if_pos h2]
    exact ite_zero_cases _ _ (L p)
  · by_cases h4 : img.has_mask = true
    · by_cases h5 : ((((allPos h w).filter
          (fun r => !(binary_erosion h w img.mask r) && img.mask r)).map L).any
          (fun l => decide (l ≠ 0))) = true
      · unfold filter_on_border
        rw [if_pos h1, if_neg h2, if_pos h4, if_pos h5]
        exact ite_zero_cases _ _ (L p)
      · right; unfold filter_on_border
        rw [if_pos h1, if_neg h2, if_pos h4, if_neg h5]
    · right; unfold filter_on_border
      rw [if_pos h1, if_neg h2, if_neg h4]

/-- The filtered map of `filter_on_size` either zeroes a pixel or leaves its
label alone. -/
theorem filter_on_size_fst_cases (s : Settings) (h w : ℕ) (L : Pos → ℕ)
    (count : ℕ) (p : Pos) :
    (filter_on_size s h w L count).1 p = 0 ∨
    (filter_on_size s h w L count).1 p = L p := by
  unfold filter_on_size
  split_ifs <;> simp only [] <;> (try split_ifs) <;> simp

/-- The modelled `relabel` preserves the background exactly. -/
theorem relabel_eq_zero_iff (h w : ℕ) (L : Pos → ℕ) (p : Pos) :
    (relabel h w L).1 p = 0 ↔ L p = 0 := by
  unfold relabel
  by_cases h0 : L p = 0 <;> simp [h0]

/-- C2 (amended): with hole filling disabled, the nonzero-pixel sets of the
final, size-excluded and border-excluded label maps are pairwise disjoint
and their union is the nonzero set of the unedited map, for every input. -/
theorem monotonic_exclusion_without_fill (s : Settings) (h w : ℕ)
    (img : CPImage) (L : Pos → ℕ) (count : ℕ)
    (hfill : s.fill_holes = false) :
    monotonicExclusion h w (runPostFilter s h w img L count) := by
  have hA := filter_on_border_cases s h w img L
  have hS := filter_on_size_fst_cases s h w (filter_on_border s h w img L) count
  unfold monotonicExclusion runPostFilter
  simp only [hfill, Bool.false_eq_true, if_false]
  set A := filter_on_border s h w img L with hAdef
  set S := (filter_on_size s h w A count).1 with hSdef
  have hRz : ∀ q, (relabel h w S).1 q = 0 ↔ S q = 0 :=
    fun q => relabel_eq_zero_iff h w S q
  constructor
  · intro p _
    constructor
    · intro hfin
      have hs : S p ≠ 0 := fun hz => hfin ((hRz p).mpr hz)
      have ha : A p ≠ 0 := by
        rcases hS p with hz | he
        · exact absurd hz hs
        · rw [he] at hs; exact hs
      constructor
      · simp [Nat.pos_of_ne_zero hs]
      · simp [Nat.pos_of_ne_zero ha]
    · intro hsz
      have ha : A p ≠ 0 := by
        by_cases hpos : 0 < S p
        · simp [hpos] at hsz
        · simpa [hpos] using hsz
      simp [Nat.pos_of_ne_zero ha]
  · intro p _
    constructor
    · rintro (hfin | hsz | hbd)
      · have hs : S p ≠ 0 := fun hz => hfin ((hRz p).mpr hz)
        have ha : A p ≠ 0 := by
          rcases hS p with hz | he
          · exact absurd hz hs
          · rw [he] at hs; exact hs
        rcases hA p with hz | he
        · exact absurd hz ha
        · rw [he] at ha; exact ha
      · have ha : A p ≠ 0 := by
          by_cases hpos : 0 < S p
          · simp [hpos] at hsz
          · simpa [hpos] using hsz
        rcases hA p with hz | he
        · exact absurd hz ha
        · rw [he] at ha; exact ha
      · by_cases hpos : 0 < A p
        · simp [hpos] at hbd
        · simpa [hpos] using hbd
    · intro hL
      rcases hA p with hz | he
      · right; right
        simpa [hz] using hL
      · rcases hS p with hz2 | he2
        · right; left
          simpa [hz2, he] using hL
        · left
          intro hfin
          have hz : S p = 0 := (hRz p).mp hfin
          rw [he2, he] at hz
          exact hL hz

/-- Witness for C2 with hole filling disabled on the 3×3 ring input. -/
theorem monotonic_exclusion_without_fill_witness :
    monotonicExclusion 3 3
      (runPostFilter { smallSizeSettings with fill_holes := false } 3 3
        ⟨fun _ => true, false⟩ ringLabels 2) :=
  monotonic_exclusion_without_fill _ 3 3 _ _ 2 rfl

/-- C2 (counterexample): with hole filling on, the size-excluded single-pixel
object at the centre of the 3×3 ring is re-added to the final labels by the
post-relabel hole fill, so the final and size-excluded nonzero sets
intersect and the claimed partition fails. -/
theorem monotonic_exclusion_fails_with_fill :
    ¬ monotonicExclusion 3 3
      (runPostFilter smallSizeSettings 3 3 ⟨fun _ => true, false⟩ ringLabels 2) := by
  decide

/-- A 10×10 map entirely covered by a single object of label 1. -/
def tenGrid : Pos → ℕ :=
  fun p => if 0 ≤ p.1 ∧ p.1 < 10 ∧ 0 ≤ p.2 ∧ p.2 < 10 then 1 else 0

/-- C4: the displayed percentile diameter divides by `π` instead of `√π`.
On a single 100-pixel object the sorted areas are `[100]`, the code's
statistic evaluates to `20/π ≈ 6.37`, but the equivalent-diameter formula
`2·sqrt(area/π)` the spec states gives `20/√π ≈ 11.28`. -/
theorem percentile_diameter_formula_bug :
    objectAreasSorted 10 10 tenGrid 1 = [100] ∧
    low_diameter [100] 1 = 20 / Real.pi ∧
    high_diameter [100] 1 = 20 / Real.pi ∧
    low_diameter [100] 1 ≠ equivDiameterSpec 100 := by
  have hsqrt : Real.sqrt 100 = 10 := by
    rw [show (100 : ℝ) = 10 ^ 2 by norm_num, Real.sqrt_sq (by norm_num : (0:ℝ) ≤ 10)]
  have hpi1 : (1 : ℝ) < Real.pi := by
    have := Real.pi_gt_three
    linarith
  have hval : low_diameter [100] 1 = 20 / Real.pi := by
    unfold low_diameter
    norm_num [hsqrt]
  have hval9 : high_diameter [100] 1 = 20 / Real.pi := by
    unfold high_diameter
    norm_num [hsqrt]
  refine ⟨by decide, hval, hval9, ?_⟩
  rw [hval]
  unfold equivDiameterSpec
  have hs100 : Real.sqrt ((100 : ℕ) / Real.pi) = 10 / Real.sqrt Real.pi := by
    rw [show ((100 : ℕ) : ℝ) / Real.pi = (100 : ℝ) / Real.pi by norm_num,
      Real.sqrt_div (by norm_num : (0:ℝ) ≤ 100), hsqrt]
  rw [hs100]
  have hsp0 : 0 < Real.sqrt Real.pi := Real.sqrt_pos.mpr (by linarith)
  have hsp : Real.sqrt Real.pi < Real.pi := by
    rw [Real.sqrt_lt' (by linarith : (0:ℝ) < Real.pi)]
    nlinarith
  have : (20 : ℝ) / Real.pi < 20 / Real.sqrt Real.pi :=
    div_lt_div_of_pos_left (by norm_num) hsp0 hsp
  intro he
  rw [show (2 : ℝ) * (10 / Real.sqrt Real.pi) = 20 / Real.sqrt Real.pi by ring] at he
  exact absurd he (ne_of_lt this)

/-- Gaussian kernel coefficients are strictly positive for positive sigma. -/
theorem gaussKernel_pos (sigma : ℚ) (hs : 0 < (sigma : ℝ)) (d : ℤ) :
    0 < gaussKernel sigma d := by
  unfold gaussKernel
  have h2pi : 0 < Real.sqrt (2 * Real.pi) := Real.sqrt_pos.mpr (by positivity)
  positivity

/-- A configuration with automatic smoothing off and a manual smoothing
filter size of −1. -/
def negSmoothSettings : Settings :=
  { baseSettings with automatic_smoothing := false, smoothing_filter_size := -1 }

/-- The 1×2 real-valued image `[0, 1]`. -/
def exRealImage : Pos → ℝ := fun p => if p.2 = 1 then 1 else 0

/-- C9 (counterexample): with the computed filter size −1 ≤ 0 the smoother is
not the identity — the zero check on line 717 tests `== 0` only, so the
negative size falls through to the blur, whose kernel half-width clamps to 1
and mixes the bright neighbour into pixel (0,0). -/
theorem smooth_image_blurs_on_negative_size :
    calc_smoothing_filter_size negSmoothSettings ≤ 0 ∧
    smooth_image negSmoothSettings 1 2 exRealImage (fun _ => true) 1 (0, 0) ≠
      exRealImage (0, 0) := by
  constructor
  · decide
  · have hcalc : calc_smoothing_filter_size negSmoothSettings = -1 := by decide
    have hk0 := gaussKernel_pos 1 (by norm_num) 0
    have hk1 := gaussKernel_pos 1 (by norm_num) 1
    have hkm1 := gaussKernel_pos 1 (by norm_num) (-1)
    have hIR : intRange (-(1 : ℤ)) 1 = [-1, 0, 1] := by decide
    have hfs : max (pytrunc ((-1 : ℚ) / 2)) 1 = 1 := by decide
    unfold smooth_image
    simp only [hcalc]
    rw [if_neg (by norm_num)]
    simp only [hfs]
    unfold convCols convRows
    simp only [hIR, List.foldr]
    norm_num [exRealImage]
    refine ⟨⟨ne_of_gt hk1, ne_of_gt hk0⟩, ?_⟩
    nlinarith
